import Mathlib

/-!
Shallow embedding of the HR-dashboard data-preparation pipeline
(`prepare_df`) and indicator functions (`k_*`) from `src/app.py`,
together with proofs of the testable properties of the specification.

A pandas `DataFrame` is modelled as a row count together with an
association list of named, homogeneously typed columns (`Table`).
Missing scalar values (`NaN` / `NaT`) are modelled with `Option`;
floating-point numbers are modelled by `ℚ` (the monetary and derived
values involved are exact decimals, so no rounding behaviour is lost).
Calendar timestamps are modelled by a `Date` record with exact
day-count conversion (the civil-calendar algorithm), so subtraction of
timestamps in days is exact.
-/

namespace HRDash

/-- A calendar date (proleptic Gregorian), modelling a pandas
midnight `Timestamp`. -/
structure Date where
  year : Int
  month : Nat
  day : Nat
deriving DecidableEq, Repr

/-- Gregorian leap-year test. -/
def isLeap (y : Int) : Bool :=
  y % 4 = 0 && (y % 100 != 0 || y % 400 = 0)

/-- Number of days in the given month of the given year. -/
def daysInMonth (y : Int) (m : Nat) : Nat :=
  if m = 2 then (if isLeap y then 29 else 28)
  else if m = 4 || m = 6 || m = 9 || m = 11 then 30
  else 31

/-- Days since 1970-01-01 of a civil date (standard era-based
civil-calendar conversion; exact, matching timestamp subtraction
`.dt.days` in the source). -/
def Date.toDays (dt : Date) : Int :=
  let y : Int := if dt.month ≤ 2 then dt.year - 1 else dt.year
  let era : Int := Int.fdiv y 400
  let yoe : Int := y - era * 400
  let mp : Int := ((dt.month : Int) + 9) % 12
  let doy : Int := Int.fdiv (153 * mp + 2) 5 + (dt.day : Int) - 1
  let doe : Int := yoe * 365 + Int.fdiv yoe 4 - Int.fdiv yoe 100 + doy
  era * 146097 + doe - 719468

/-- Civil date from days since 1970-01-01 (inverse of `Date.toDays`). -/
def Date.ofDays (z0 : Int) : Date :=
  let z := z0 + 719468
  let era := Int.fdiv z 146097
  let doe := z - era * 146097
  let yoe := Int.fdiv (doe - Int.fdiv doe 1460 + Int.fdiv doe 36524 - Int.fdiv doe 146096) 365
  let y := yoe + era * 400
  let doy := doe - (365 * yoe + Int.fdiv yoe 4 - Int.fdiv yoe 100)
  let mp := Int.fdiv (5 * doy + 2) 153
  let d := doy - Int.fdiv (153 * mp + 2) 5 + 1
  let m := if mp < 10 then mp + 3 else mp - 9
  ⟨if m ≤ 2 then y + 1 else y, m.toNat, d.toNat⟩

/-- The data of one column of a table.  `text` is a raw pandas
`object` column of strings with possible missing cells (`NaN`);
`strD` is an `object` column every cell of which is a string (the
state after `astype(str)`); `numD` is a numeric column with `NaN`
modelled as `none`; `dateD` is a `datetime64` column with `NaT`
modelled as `none`. -/
inductive ColData where
  | text (vals : List (Option String))
  | strD (vals : List String)
  | numD (vals : List (Option ℚ))
  | dateD (vals : List (Option Date))
deriving DecidableEq, Repr

/-- A table: a row count and named columns, modelling a `DataFrame`. -/
structure Table where
  nrows : Nat
  cols : List (String × ColData)
deriving DecidableEq, Repr

/-- Column lookup by name (first match), modelling `df[c]` /
`c in df.columns`. -/
def getCol (t : Table) (n : String) : Option ColData :=
  (t.cols.find? (fun p => p.1 = n)).map Prod.snd

/-- Replace the (first) column named `n`, or append it if absent,
modelling the assignment `df[n] = ...`. -/
def setColList (n : String) (c : ColData) : List (String × ColData) → List (String × ColData)
  | [] => [(n, c)]
  | (m, d) :: rest => if m = n then (n, c) :: rest else (m, d) :: setColList n c rest

/-- `df[n] = c` at table level. -/
def setCol (t : Table) (n : String) (c : ColData) : Table :=
  ⟨t.nrows, setColList n c t.cols⟩

/-- Apply a name-dependent transformation to every column in place. -/
def mapColsN (f : String → ColData → ColData) (t : Table) : Table :=
  ⟨t.nrows, t.cols.map (fun p => (p.1, f p.1 p.2))⟩

/-- `astype(str)` on a single `object` cell: a missing value (`NaN`)
renders as the literal string "nan". -/
def astypeStr : Option String → String
  | none => "nan"
  | some s => s

/-- Python's `str.strip()`: remove leading and trailing whitespace. -/
def stripStr (s : String) : String :=
  ⟨((s.data.dropWhile Char.isWhitespace).reverse.dropWhile Char.isWhitespace).reverse⟩

/-- The per-cell trim chain `astype(str).str.strip()`. -/
def trimCell (v : Option String) : String :=
  stripStr (astypeStr v)

/-- Step 1 per column: `df[c] = df[c].astype(str).str.strip()` for the
`object` columns selected by `select_dtypes(include="object")`;
non-`object` columns are untouched. -/
def trimCol : ColData → ColData
  | .text vs => .strD (vs.map trimCell)
  | .strD vs => .strD (vs.map stripStr)
  | c => c

/-- Step 1 of `prepare_df`. -/
def trimStep (t : Table) : Table :=
  mapColsN (fun _ c => trimCol c) t

/-- The three date columns, as in the source's `DATE_COLS`. -/
def DATE_COLS : List String :=
  ["Data de Nascimento", "Data de Contratacao", "Data de Demissao"]

/-- Split a character list at every occurrence of `sep` (the pieces
between separators, like Python's `str.split(sep)`). -/
def splitChars (sep : Char) : List Char → List (List Char)
  | [] => [[]]
  | c :: cs =>
    let r := splitChars sep cs
    if c = sep then [] :: r
    else
      match r with
      | [] => [[c]]
      | h :: tl => (c :: h) :: tl

/-- The value of a decimal digit, `none` for any other character. -/
def digitVal (c : Char) : Option Nat :=
  if c.isDigit then some (c.toNat - 48) else none

/-- Parse a non-empty all-digit character list as a natural number. -/
def digitsToNat? (cs : List Char) : Option Nat :=
  match cs with
  | [] => none
  | _ =>
    cs.foldl (fun acc c => acc.bind (fun a => (digitVal c).map (fun d => a * 10 + d)))
      (some 0)

/-- Parse one date string in the `DD/MM/YYYY` (dayfirst) form of the
input data; any other string yields `none`.  This models the
`dayfirst=True, errors="coerce"` string path of `pd.to_datetime`:
a value that fails to parse becomes `NaT` (`none`), never an error. -/
def parseDate (s : String) : Option Date :=
  match splitChars '/' s.data with
  | [ds, ms, ys] =>
    match digitsToNat? ds, digitsToNat? ms, digitsToNat? ys with
    | some d, some m, some y =>
      if 1 ≤ m ∧ m ≤ 12 ∧ 1 ≤ d ∧ d ≤ daysInMonth (y : Int) m then
        some ⟨(y : Int), m, d⟩
      else none
    | _, _, _ => none
  | _ => none

/-- One nanosecond-epoch value per day, for numeric/datetime
interconversion used by pandas. -/
def nsPerDay : Int := 86400000000000

/-- `pd.to_datetime(df[c], dayfirst=True, errors="coerce")` on a whole
column: strings are parsed (failures coerce to `NaT`), an existing
datetime column passes through, numeric cells are interpreted as
nanoseconds since the epoch. -/
def toDatetimeCol : ColData → ColData
  | .strD vs => .dateD (vs.map parseDate)
  | .text vs => .dateD (vs.map (fun v => v.bind parseDate))
  | .dateD vs => .dateD vs
  | .numD vs => .dateD (vs.map (Option.map (fun q => Date.ofDays (Int.fdiv ⌊q⌋ nsPerDay))))

/-- Step 2 of `prepare_df`: convert each of `DATE_COLS` that is
present. -/
def dateStep (t : Table) : Table :=
  mapColsN (fun n c => if n ∈ DATE_COLS then toDatetimeCol c else c) t

/-- Python's `str.upper` (ASCII case mapping, as all sex-code values
in the data are ASCII). -/
def pyUpper (s : String) : String :=
  ⟨s.data.map Char.toUpper⟩

/-- The sex-code canonicalization applied per cell by
`df["Sexo"].str.upper().replace({"MASCULINO": "M", "FEMININO": "F"})`. -/
def sexCanon (s : String) : String :=
  let u := pyUpper s
  if u = "MASCULINO" then "M" else if u = "FEMININO" then "F" else u

/-- The `.str.upper().replace(...)` chain on a whole column.  The
`.str` accessor raises unless the column is an `object` column, which
the embedding reports as an `Except.error`. -/
def canonSexCol : ColData → Except String ColData
  | .strD vs => .ok (.strD (vs.map sexCanon))
  | .text vs => .ok (.text (vs.map (Option.map sexCanon)))
  | _ => .error "Can only use .str accessor with string values"

/-- Step 3 of `prepare_df`: canonicalize `Sexo` when the column
exists. -/
def sexoStep (t : Table) : Except String Table :=
  match getCol t "Sexo" with
  | none => .ok t
  | some c => (canonSexCol c).map (fun c2 => setCol t "Sexo" c2)

/-- The five monetary columns, in the order the source iterates. -/
def MONEY_COLS : List String :=
  ["Salario Base", "Impostos", "Beneficios", "VT", "VR"]

/-- Parse an unsigned decimal literal (`"123"` or `"123.45"`) from
characters. -/
def parseDecimal (cs : List Char) : Option ℚ :=
  match splitChars '.' cs with
  | [a] => (digitsToNat? a).map (fun n => (n : ℚ))
  | [a, b] =>
    match digitsToNat? a, digitsToNat? b with
    | some n, some m => some ((n : ℚ) + (m : ℚ) / (10 : ℚ) ^ b.length)
    | _, _ => none
  | _ => none

/-- Numeric coercion of one string cell, modelling the string path of
`pd.to_numeric(..., errors="coerce")`: decimal literals with optional
sign parse, anything else (non-numeric text, the empty string) becomes
`NaN` (`none`). -/
def parseRat (s : String) : Option ℚ :=
  match s.data with
  | '-' :: rest => (parseDecimal rest).map Neg.neg
  | '+' :: rest => parseDecimal rest
  | cs => parseDecimal cs

/-- `pd.to_numeric(df[col], errors="coerce")` on a whole column:
strings are coerced (failures become `NaN`), numeric columns pass
through, datetime cells convert to epoch nanoseconds. -/
def toNumericCol : ColData → ColData
  | .strD vs => .numD (vs.map parseRat)
  | .text vs => .numD (vs.map (fun v => v.bind parseRat))
  | .numD vs => .numD vs
  | .dateD vs => .numD (vs.map (Option.map (fun d => ((d.toDays * nsPerDay : Int) : ℚ))))

/-- `.fillna(0.0)` on a numeric column. -/
def fillna0 : ColData → ColData
  | .numD vs => .numD (vs.map (fun v => some (v.getD 0)))
  | c => c

/-- The value of monetary column `col` after step 4: ensure presence
(`df[col] = 0.0` when absent), then coerce and fill. -/
def moneyCol (t : Table) (col : String) : ColData :=
  fillna0 (toNumericCol ((getCol t col).getD (.numD (List.replicate t.nrows (some 0)))))

/-- Step 4 of `prepare_df`, iterating the five monetary columns in
source order. -/
def moneyStep (t : Table) : Table :=
  MONEY_COLS.foldl (fun t col => setCol t col (moneyCol t col)) t

/-- Step 5 of `prepare_df`:
`df["Idade"] = ((today - df["Data de Nascimento"]).dt.days // 365).clip(lower=0)`,
only when the birth-date column exists (after step 2 it is a datetime
column; `NaT` cells propagate to missing ages). -/
def ageStep (today : Date) (t : Table) : Table :=
  match getCol t "Data de Nascimento" with
  | some (.dateD vs) =>
    setCol t "Idade"
      (.numD (vs.map (Option.map (fun b =>
        ((max 0 (Int.fdiv (today.toDays - b.toDays) 365) : Int) : ℚ)))))
  | _ => t

/-- Step 6 of `prepare_df`:
`meses = (today.year - hire.dt.year) * 12 + (today.month - hire.dt.month)`,
clipped below at 0, only when the hire-date column exists. -/
def tenureStep (today : Date) (t : Table) : Table :=
  match getCol t "Data de Contratacao" with
  | some (.dateD vs) =>
    setCol t "Tempo de Casa (meses)"
      (.numD (vs.map (Option.map (fun h =>
        ((max 0 ((today.year - h.year) * 12 + ((today.month : Int) - (h.month : Int))) : Int) : ℚ)))))
  | _ => t

/-- `notna()` per cell on a whole column (a cell of an all-string
column is never missing). -/
def notnaList : ColData → List Bool
  | .text vs => vs.map Option.isSome
  | .strD vs => vs.map (fun _ => true)
  | .numD vs => vs.map Option.isSome
  | .dateD vs => vs.map Option.isSome

/-- Step 7 of `prepare_df`:
`np.where(df["Data de Demissao"].notna(), "Desligado", "Ativo")` when
the termination-date column exists, otherwise the constant column
`"Ativo"`. -/
def statusStep (t : Table) : Table :=
  match getCol t "Data de Demissao" with
  | some c =>
    setCol t "Status" (.strD ((notnaList c).map (fun b => if b then "Desligado" else "Ativo")))
  | none => setCol t "Status" (.strD (List.replicate t.nrows "Ativo"))

/-- The numeric value of column `col` at row `i`, with pandas `sum`
semantics: a missing (`NaN`) or absent cell contributes 0. -/
def numValsAt (t : Table) (col : String) (i : Nat) : ℚ :=
  match getCol t col with
  | some (.numD vs) => (vs.getD i none).getD 0
  | _ => 0

/-- Step 8 of `prepare_df`:
`df["Custo Total Mensal"] = df[MONEY_COLS].sum(axis=1)` (row-wise sum
over the five monetary columns, `NaN` counting as 0 under the default
`skipna`). -/
def custoStep (t : Table) : Table :=
  setCol t "Custo Total Mensal"
    (.numD ((List.range t.nrows).map (fun i =>
      some (MONEY_COLS.foldl (fun a c => a + numValsAt t c i) 0))))

/-- The full `prepare_df` pipeline of `src/app.py`, with the reference
date `today` an explicit parameter (the source reads
`pd.Timestamp(date.today())`). -/
def prepare_df (today : Date) (t : Table) : Except String Table := do
  let t1 := trimStep t
  let t2 := dateStep t1
  let t3 ← sexoStep t2
  let t4 := moneyStep t3
  let t5 := ageStep today t4
  let t6 := tenureStep today t5
  let t7 := statusStep t6
  return custoStep t7

/-- The table with zero records and no columns. -/
def emptyTable : Table := ⟨0, []⟩

/-- The `Status` column's values of a prepared table (field access
`d["Status"]`). -/
def statusList (d : Table) : List String :=
  match getCol d "Status" with
  | some (.strD vs) => vs
  | _ => []

/-- The values of a numeric column of a prepared table. -/
def numList (d : Table) (c : String) : List (Option ℚ) :=
  match getCol d c with
  | some (.numD vs) => vs
  | _ => []

/-- `int((d["Status"] == "Ativo").sum())`. -/
def k_headcount_ativo (d : Table) : Int :=
  ((statusList d).filter (fun s => s = "Ativo")).length

/-- `int((d["Status"] == "Desligado").sum())`. -/
def k_desligados (d : Table) : Int :=
  ((statusList d).filter (fun s => s = "Desligado")).length

/-- `float(d.loc[d["Status"] == "Ativo", "Salario Base"].sum())`. -/
def k_folha (d : Table) : ℚ :=
  (((statusList d).zip (numList d "Salario Base")).filter (fun p => p.1 = "Ativo")).foldl
    (fun a p => a + p.2.getD 0) 0

/-- `float(d.loc[d["Status"] == "Ativo", "Custo Total Mensal"].sum())`. -/
def k_custo_total (d : Table) : ℚ :=
  (((statusList d).zip (numList d "Custo Total Mensal")).filter (fun p => p.1 = "Ativo")).foldl
    (fun a p => a + p.2.getD 0) 0

/-- `Series.mean()` with the default `skipna`: the mean of the
non-missing values, `NaN` (`none`) when there are none. -/
def optMean (vs : List (Option ℚ)) : Option ℚ :=
  let xs := vs.filterMap id
  if xs.length = 0 then none else some ((xs.foldl (fun a b => a + b) 0) / (xs.length : ℚ))

/-- `float(d["Idade"].mean()) if "Idade" in d.columns else 0`. -/
def k_idade_media (d : Table) : Option ℚ :=
  if (getCol d "Idade").isSome then optMean (numList d "Idade") else some 0

/-- `float(d["Avaliação do Funcionário"].mean())` when the rating
column exists, else 0. -/
def k_avaliacao_media (d : Table) : Option ℚ :=
  if (getCol d "Avaliação do Funcionário").isSome then
    optMean (numList d "Avaliação do Funcionário")
  else some 0

/-- Whether a column can be handled by the `.str` accessor (an
`object` column). -/
def strConvertible : ColData → Bool
  | .text _ => true
  | .strD _ => true
  | _ => false

/-- Whether the `Sexo` column, if present, is an `object` column, so
that step 3 of `prepare_df` cannot raise. -/
def sexoConvertible (t : Table) : Bool :=
  match getCol t "Sexo" with
  | some c => strConvertible c
  | none => true

/-- The input columns recognized by the data model: the
identity/categorical columns, the date columns and the monetary
columns. -/
def recognizedCols : List String :=
  ["Área", "Cargo", "Sexo"] ++ DATE_COLS ++ MONEY_COLS

/-- The names of the four derived columns written by `prepare_df`. -/
def derivedCols : List String :=
  ["Idade", "Tempo de Casa (meses)", "Status", "Custo Total Mensal"]

/-- A fixed reference date used for concrete evaluations. -/
def refDate : Date := ⟨2026, 10, 12⟩

/-- Concrete table: two records with long-form and unrecognized sex
codes. -/
def tSexo : Table := ⟨2, [("Sexo", .text [some "feminino", some "Outro"])]⟩

/-- Concrete table: one unrecognized text column with surrounding
whitespace. -/
def tObs : Table := ⟨1, [("Observacao", .text [some "  x  "])]⟩

/-- Concrete table: a termination-date column with one parseable and
one missing value. -/
def tDemissao : Table := ⟨2, [("Data de Demissao", .text [some "01/02/2020", none])]⟩

/-- Concrete table: one monetary column numeric-as-text, one
non-numeric, three absent. -/
def tMoney : Table := ⟨1, [("Salario Base", .text [some "5000"]), ("VT", .text [some "abc"])]⟩

/-- Concrete table: birth and hire dates in the future of `refDate`. -/
def tFuture : Table :=
  ⟨1, [("Data de Nascimento", .text [some "01/01/2050"]),
       ("Data de Contratacao", .text [some "01/01/2050"])]⟩

/-- Concrete table: a text sex column and an unparseable birth date. -/
def tMalformed : Table :=
  ⟨1, [("Sexo", .text [some "feminino"]), ("Data de Nascimento", .text [some "not-a-date"])]⟩

/-- Concrete table: a text column with whitespace and a missing cell. -/
def tNome : Table := ⟨2, [("Nome", .text [some " Ana ", none])]⟩

/-- The prepared form of `tSexo`. -/
def dSexo : Table := (prepare_df refDate tSexo).toOption.getD emptyTable

/-- The prepared form of `tObs`. -/
def dObs : Table := (prepare_df refDate tObs).toOption.getD emptyTable

/-- The prepared form of `tDemissao`. -/
def dDemissao : Table := (prepare_df refDate tDemissao).toOption.getD emptyTable

/-- The prepared form of `tMoney`. -/
def dMoney : Table := (prepare_df refDate tMoney).toOption.getD emptyTable

/-- The prepared form of `tFuture`. -/
def dFuture : Table := (prepare_df refDate tFuture).toOption.getD emptyTable

/-- The prepared form of `tMalformed`. -/
def dMalformed : Table := (prepare_df refDate tMalformed).toOption.getD emptyTable

/-! ### Basic laws of the table operations -/

theorem find?_setColList_self (n : String) (c : ColData) (l : List (String × ColData)) :
    (setColList n c l).find? (fun p => p.1 = n) = some (n, c) := by
  induction l with
  | nil => simp [setColList]
  | cons hd tl ih =>
    obtain ⟨m, d⟩ := hd
    by_cases hm : m = n
    · subst hm
      simp [setColList]
    · simp [setColList, hm, ih]

theorem find?_setColList_ne (n m : String) (c : ColData) (l : List (String × ColData))
    (h : n ≠ m) :
    (setColList m c l).find? (fun p => p.1 = n) = l.find? (fun p => p.1 = n) := by
  induction l with
  | nil => simp [setColList, Ne.symm h]
  | cons hd tl ih =>
    obtain ⟨k, d⟩ := hd
    by_cases hk : k = m
    · subst hk
      simp [setColList, Ne.symm h]
    · by_cases hkn : k = n
      · subst hkn
        simp [setColList, hk]
      · simp [setColList, hk, hkn, ih]

theorem getCol_setCol_self (t : Table) (n : String) (c : ColData) :
    getCol (setCol t n c) n = some c := by
  simp [getCol, setCol, find?_setColList_self]

theorem getCol_setCol_ne (t : Table) {n m : String} (c : ColData) (h : n ≠ m) :
    getCol (setCol t m c) n = getCol t n := by
  simp [getCol, setCol, find?_setColList_ne n m c _ h]

theorem nrows_setCol (t : Table) (n : String) (c : ColData) :
    (setCol t n c).nrows = t.nrows := rfl

theorem find?_cols_map (f : String → ColData → ColData) (l : List (String × ColData))
    (n : String) :
    (l.map (fun p => (p.1, f p.1 p.2))).find? (fun p => p.1 = n)
      = (l.find? (fun p => p.1 = n)).map (fun p => (p.1, f p.1 p.2)) := by
  induction l with
  | nil => simp
  | cons hd tl ih =>
    by_cases h : hd.1 = n
    · simp [List.find?, h]
    · simp [List.find?, h, ih]

theorem getCol_mapColsN (f : String → ColData → ColData) (t : Table) (n : String) :
    getCol (mapColsN f t) n = (getCol t n).map (f n) := by
  unfold getCol mapColsN
  simp only [find?_cols_map]
  cases h : t.cols.find? (fun p => p.1 = n) with
  | none => simp
  | some p =>
    have hp : p.1 = n := by simpa using List.find?_some h
    simp [hp]

theorem nrows_mapColsN (f : String → ColData → ColData) (t : Table) :
    (mapColsN f t).nrows = t.nrows := rfl

/-! ### Per-step locality lemmas -/

theorem getCol_trimStep (t : Table) (n : String) :
    getCol (trimStep t) n = (getCol t n).map trimCol :=
  getCol_mapColsN _ t n

theorem getCol_dateStep (t : Table) (n : String) :
    getCol (dateStep t) n
      = (getCol t n).map (fun c => if n ∈ DATE_COLS then toDatetimeCol c else c) :=
  getCol_mapColsN _ t n

theorem sexoStep_getCol_ne {t t' : Table} (h : sexoStep t = .ok t') {n : String}
    (hn : n ≠ "Sexo") : getCol t' n = getCol t n := by
  unfold sexoStep at h
  cases hg : getCol t "Sexo" with
  | none =>
    simp only [hg] at h
    cases h
    rfl
  | some c =>
    simp only [hg] at h
    cases hc : canonSexCol c with
    | error e => simp [hc, Except.map] at h
    | ok c2 =>
      simp only [hc, Except.map] at h
      cases h
      exact getCol_setCol_ne t c2 hn

theorem sexoStep_nrows {t t' : Table} (h : sexoStep t = .ok t') : t'.nrows = t.nrows := by
  unfold sexoStep at h
  cases hg : getCol t "Sexo" with
  | none => simp only [hg] at h; cases h; rfl
  | some c =>
    simp only [hg] at h
    cases hc : canonSexCol c with
    | error e => simp [hc, Except.map] at h
    | ok c2 => simp only [hc, Except.map] at h; cases h; rfl

theorem moneyCol_congr {t t' : Table} (c : String) (hc : getCol t' c = getCol t c)
    (hn : t'.nrows = t.nrows) : moneyCol t' c = moneyCol t c := by
  unfold moneyCol
  rw [hc, hn]

theorem getCol_moneyStep_ne (t : Table) {n : String} (h : n ∉ MONEY_COLS) :
    getCol (moneyStep t) n = getCol t n := by
  simp only [MONEY_COLS, List.mem_cons, List.not_mem_nil, or_false, not_or] at h
  obtain ⟨h1, h2, h3, h4, h5⟩ := h
  simp only [moneyStep, MONEY_COLS, List.foldl]
  rw [getCol_setCol_ne _ _ h5, getCol_setCol_ne _ _ h4, getCol_setCol_ne _ _ h3,
    getCol_setCol_ne _ _ h2, getCol_setCol_ne _ _ h1]

theorem nrows_moneyStep (t : Table) : (moneyStep t).nrows = t.nrows := rfl

theorem getCol_moneyStep_mem (t : Table) {c : String} (h : c ∈ MONEY_COLS) :
    getCol (moneyStep t) c = some (moneyCol t c) := by
  have hnr : ∀ (t' : Table) (n : String) (cd : ColData), (setCol t' n cd).nrows = t'.nrows :=
    fun _ _ _ => rfl
  simp only [MONEY_COLS, List.mem_cons, List.not_mem_nil, or_false] at h
  simp only [moneyStep, MONEY_COLS, List.foldl]
  rcases h with h | h | h | h | h <;> subst h
  · rw [getCol_setCol_ne _ _ (by decide), getCol_setCol_ne _ _ (by decide),
      getCol_setCol_ne _ _ (by decide), getCol_setCol_ne _ _ (by decide),
      getCol_setCol_self]
  · rw [getCol_setCol_ne _ _ (by decide), getCol_setCol_ne _ _ (by decide),
      getCol_setCol_ne _ _ (by decide), getCol_setCol_self]
    exact congrArg some (moneyCol_congr _ (getCol_setCol_ne _ _ (by decide)) rfl)
  · rw [getCol_setCol_ne _ _ (by decide), getCol_setCol_ne _ _ (by decide),
      getCol_setCol_self]
    exact congrArg some (moneyCol_congr _ (by rw [getCol_setCol_ne _ _ (by decide),
      getCol_setCol_ne _ _ (by decide)]) rfl)
  · rw [getCol_setCol_ne _ _ (by decide), getCol_setCol_self]
    exact congrArg some (moneyCol_congr _ (by rw [getCol_setCol_ne _ _ (by decide),
      getCol_setCol_ne _ _ (by decide), getCol_setCol_ne _ _ (by decide)]) rfl)
  · rw [getCol_setCol_self]
    exact congrArg some (moneyCol_congr _ (by rw [getCol_setCol_ne _ _ (by decide),
      getCol_setCol_ne _ _ (by decide), getCol_setCol_ne _ _ (by decide),
      getCol_setCol_ne _ _ (by decide)]) rfl)

theorem getCol_ageStep_ne (today : Date) (t : Table) {n : String} (hn : n ≠ "Idade") :
    getCol (ageStep today t) n = getCol t n := by
  unfold ageStep
  cases hg : getCol t "Data de Nascimento" with
  | none => rfl
  | some c => cases c <;> simp [getCol_setCol_ne _ _ hn]

theorem nrows_ageStep (today : Date) (t : Table) : (ageStep today t).nrows = t.nrows := by
  unfold ageStep
  cases hg : getCol t "Data de Nascimento" with
  | none => rfl
  | some c => cases c <;> rfl

theorem getCol_ageStep_idade (today : Date) (t : Table) {vs : List (Option Date)}
    (hg : getCol t "Data de Nascimento" = some (.dateD vs)) :
    getCol (ageStep today t) "Idade"
      = some (.numD (vs.map (Option.map (fun b =>
          ((max 0 (Int.fdiv (today.toDays - b.toDays) 365) : Int) : ℚ))))) := by
  unfold ageStep
  rw [hg]
  exact getCol_setCol_self ..

theorem getCol_tenureStep_ne (today : Date) (t : Table) {n : String}
    (hn : n ≠ "Tempo de Casa (meses)") :
    getCol (tenureStep today t) n = getCol t n := by
  unfold tenureStep
  cases hg : getCol t "Data de Contratacao" with
  | none => rfl
  | some c => cases c <;> simp [getCol_setCol_ne _ _ hn]

theorem nrows_tenureStep (today : Date) (t : Table) :
    (tenureStep today t).nrows = t.nrows := by
  unfold tenureStep
  cases hg : getCol t "Data de Contratacao" with
  | none => rfl
  | some c => cases c <;> rfl

theorem getCol_tenureStep_self (today : Date) (t : Table) {vs : List (Option Date)}
    (hg : getCol t "Data de Contratacao" = some (.dateD vs)) :
    getCol (tenureStep today t) "Tempo de Casa (meses)"
      = some (.numD (vs.map (Option.map (fun h =>
          ((max 0 ((today.year - h.year) * 12 + ((today.month : Int) - (h.month : Int))) : Int) : ℚ))))) := by
  unfold tenureStep
  rw [hg]
  exact getCol_setCol_self ..

theorem getCol_statusStep_ne (t : Table) {n : String} (hn : n ≠ "Status") :
    getCol (statusStep t) n = getCol t n := by
  unfold statusStep
  cases hg : getCol t "Data de Demissao" with
  | none => simp [getCol_setCol_ne _ _ hn]
  | some c => simp [getCol_setCol_ne _ _ hn]

theorem nrows_statusStep (t : Table) : (statusStep t).nrows = t.nrows := by
  unfold statusStep
  cases hg : getCol t "Data de Demissao" with
  | none => rfl
  | some c => rfl

theorem getCol_statusStep_some (t : Table) {c : ColData}
    (hg : getCol t "Data de Demissao" = some c) :
    getCol (statusStep t) "Status"
      = some (.strD ((notnaList c).map (fun b => if b then "Desligado" else "Ativo"))) := by
  unfold statusStep
  rw [hg]
  exact getCol_setCol_self ..

theorem getCol_statusStep_none (t : Table) (hg : getCol t "Data de Demissao" = none) :
    getCol (statusStep t) "Status" = some (.strD (List.replicate t.nrows "Ativo")) := by
  unfold statusStep
  rw [hg]
  exact getCol_setCol_self ..

theorem getCol_custoStep_ne (t : Table) {n : String} (hn : n ≠ "Custo Total Mensal") :
    getCol (custoStep t) n = getCol t n :=
  getCol_setCol_ne t _ hn

theorem getCol_custoStep_self (t : Table) :
    getCol (custoStep t) "Custo Total Mensal"
      = some (.numD ((List.range t.nrows).map (fun i =>
          some (MONEY_COLS.foldl (fun a c => a + numValsAt t c i) 0)))) :=
  getCol_setCol_self ..

theorem nrows_custoStep (t : Table) : (custoStep t).nrows = t.nrows := rfl

/-! ### Decomposition of the pipeline -/

theorem nrows_trimStep (t : Table) : (trimStep t).nrows = t.nrows := rfl

theorem nrows_dateStep (t : Table) : (dateStep t).nrows = t.nrows := rfl

theorem prepare_df_eq {today : Date} {t d : Table} (h : prepare_df today t = .ok d) :
    ∃ t3, sexoStep (dateStep (trimStep t)) = .ok t3 ∧
      d = custoStep (statusStep (tenureStep today (ageStep today (moneyStep t3)))) := by
  unfold prepare_df at h
  simp only [Bind.bind, Except.bind, pure, Except.pure] at h
  cases hs : sexoStep (dateStep (trimStep t)) with
  | error e =>
    simp only [hs] at h
    exact Except.noConfusion h
  | ok t3 =>
    simp only [hs] at h
    cases h
    exact ⟨t3, rfl, rfl⟩

theorem nrows_prepare {today : Date} {t d : Table} (h : prepare_df today t = .ok d) :
    d.nrows = t.nrows := by
  obtain ⟨t3, hs, hd⟩ := prepare_df_eq h
  subst hd
  rw [nrows_custoStep, nrows_statusStep, nrows_tenureStep, nrows_ageStep, nrows_moneyStep,
    sexoStep_nrows hs, nrows_dateStep, nrows_trimStep]

/-! ### Tracking named columns through the whole pipeline -/

theorem getCol_prepared_demissao {today : Date} {t d : Table}
    (h : prepare_df today t = .ok d) :
    getCol d "Data de Demissao"
      = (getCol t "Data de Demissao").map (fun c => toDatetimeCol (trimCol c)) := by
  obtain ⟨t3, hs, hd⟩ := prepare_df_eq h
  subst hd
  rw [getCol_custoStep_ne _ (by decide), getCol_statusStep_ne _ (by decide),
    getCol_tenureStep_ne _ _ (by decide), getCol_ageStep_ne _ _ (by decide),
    getCol_moneyStep_ne _ (by decide), sexoStep_getCol_ne hs (by decide),
    getCol_dateStep, getCol_trimStep, Option.map_map]
  simp only [DATE_COLS, List.mem_cons, List.not_mem_nil]
  rfl

/-- The fully prepared value of monetary column `c`: the raw column
(or a zero-filled default when absent), trimmed if text, coerced to
numbers, missing values filled with 0. -/
def moneyColFinal (t : Table) (c : String) : ColData :=
  fillna0 (toNumericCol (((getCol t c).map trimCol).getD
    (.numD (List.replicate t.nrows (some 0)))))

theorem getCol_prepared_money {today : Date} {t d : Table} (h : prepare_df today t = .ok d)
    {c : String} (hc : c ∈ MONEY_COLS) :
    getCol d c = some (moneyColFinal t c) := by
  obtain ⟨t3, hs, hd⟩ := prepare_df_eq h
  subst hd
  have hms : c ∈ MONEY_COLS := hc
  simp only [MONEY_COLS, List.mem_cons, List.not_mem_nil, or_false] at hc
  have hne : c ≠ "Custo Total Mensal" ∧ c ≠ "Status" ∧ c ≠ "Tempo de Casa (meses)" ∧
      c ≠ "Idade" ∧ c ≠ "Sexo" ∧ c ∉ DATE_COLS := by
    rcases hc with h' | h' | h' | h' | h' <;> subst h' <;>
      exact ⟨by decide, by decide, by decide, by decide, by decide, by decide⟩
  rw [getCol_custoStep_ne _ hne.1, getCol_statusStep_ne _ hne.2.1,
    getCol_tenureStep_ne _ _ hne.2.2.1, getCol_ageStep_ne _ _ hne.2.2.2.1,
    getCol_moneyStep_mem _ hms]
  refine congrArg some ?_
  unfold moneyCol moneyColFinal
  rw [sexoStep_getCol_ne hs hne.2.2.2.2.1, getCol_dateStep, getCol_trimStep,
    sexoStep_nrows hs, nrows_dateStep, nrows_trimStep]
  cases getCol t c with
  | none => rfl
  | some cd => simp only [Option.map_some', Option.getD_some, if_neg hne.2.2.2.2.2]

theorem getCol_prepared_sexo {today : Date} {t d : Table} (h : prepare_df today t = .ok d)
    {ws : List String} (hg : getCol (dateStep (trimStep t)) "Sexo" = some (.strD ws)) :
    getCol d "Sexo" = some (.strD (ws.map sexCanon)) := by
  obtain ⟨t3, hs, hd⟩ := prepare_df_eq h
  subst hd
  have ht3 : t3 = setCol (dateStep (trimStep t)) "Sexo" (.strD (ws.map sexCanon)) := by
    unfold sexoStep at hs
    rw [hg] at hs
    simp only [canonSexCol, Except.map] at hs
    exact (Except.ok.injEq ..).mp hs.symm
  rw [getCol_custoStep_ne _ (by decide), getCol_statusStep_ne _ (by decide),
    getCol_tenureStep_ne _ _ (by decide), getCol_ageStep_ne _ _ (by decide),
    getCol_moneyStep_ne _ (by decide), ht3, getCol_setCol_self]

theorem getCol_prepared_birth_idade {today : Date} {t d : Table}
    (h : prepare_df today t = .ok d) {c : ColData}
    (hg : getCol t "Data de Nascimento" = some c) :
    ∃ vs, getCol d "Data de Nascimento" = some (.dateD vs) ∧
      toDatetimeCol (trimCol c) = .dateD vs ∧
      getCol d "Idade" = some (.numD (vs.map (Option.map (fun b =>
        ((max 0 (Int.fdiv (today.toDays - b.toDays) 365) : Int) : ℚ))))) := by
  obtain ⟨t3, hs, hd⟩ := prepare_df_eq h
  have hbirth4 : getCol (moneyStep t3) "Data de Nascimento"
      = (getCol t "Data de Nascimento").map (fun cd => toDatetimeCol (trimCol cd)) := by
    rw [getCol_moneyStep_ne _ (by decide), sexoStep_getCol_ne hs (by decide),
      getCol_dateStep, getCol_trimStep, Option.map_map]
    simp only [DATE_COLS, List.mem_cons, List.not_mem_nil]
    rfl
  rw [hg] at hbirth4
  obtain ⟨vs, hvs⟩ : ∃ vs, toDatetimeCol (trimCol c) = .dateD vs := by
    cases trimCol c <;> exact ⟨_, rfl⟩
  refine ⟨vs, ?_, hvs, ?_⟩
  · subst hd
    rw [getCol_custoStep_ne _ (by decide), getCol_statusStep_ne _ (by decide),
      getCol_tenureStep_ne _ _ (by decide), getCol_ageStep_ne _ _ (by decide), hbirth4,
      Option.map_some', hvs]
  · subst hd
    rw [getCol_custoStep_ne _ (by decide), getCol_statusStep_ne _ (by decide),
      getCol_tenureStep_ne _ _ (by decide),
      getCol_ageStep_idade today _ (by rw [hbirth4, Option.map_some', hvs])]

theorem getCol_prepared_hire_tenure {today : Date} {t d : Table}
    (h : prepare_df today t = .ok d) {c : ColData}
    (hg : getCol t "Data de Contratacao" = some c) :
    ∃ vs, toDatetimeCol (trimCol c) = .dateD vs ∧
      getCol d "Tempo de Casa (meses)" = some (.numD (vs.map (Option.map (fun hd =>
        ((max 0 ((today.year - hd.year) * 12 + ((today.month : Int) - (hd.month : Int))) : Int) : ℚ))))) := by
  obtain ⟨t3, hs, hd⟩ := prepare_df_eq h
  have hhire5 : getCol (ageStep today (moneyStep t3)) "Data de Contratacao"
      = (getCol t "Data de Contratacao").map (fun cd => toDatetimeCol (trimCol cd)) := by
    rw [getCol_ageStep_ne _ _ (by decide), getCol_moneyStep_ne _ (by decide),
      sexoStep_getCol_ne hs (by decide), getCol_dateStep, getCol_trimStep, Option.map_map]
    simp only [DATE_COLS, List.mem_cons, List.not_mem_nil]
    rfl
  rw [hg] at hhire5
  obtain ⟨vs, hvs⟩ : ∃ vs, toDatetimeCol (trimCol c) = .dateD vs := by
    cases trimCol c <;> exact ⟨_, rfl⟩
  refine ⟨vs, hvs, ?_⟩
  subst hd
  rw [getCol_custoStep_ne _ (by decide), getCol_statusStep_ne _ (by decide),
    getCol_tenureStep_self today _ (by rw [hhire5, Option.map_some', hvs])]

theorem getCol_prepared_untouched {today : Date} {t d : Table}
    (h : prepare_df today t = .ok d) {c : String}
    (h1 : c ∉ DATE_COLS) (h2 : c ∉ MONEY_COLS) (h3 : c ≠ "Sexo") (h4 : c ∉ derivedCols) :
    getCol d c = (getCol t c).map trimCol := by
  obtain ⟨t3, hs, hd⟩ := prepare_df_eq h
  subst hd
  simp only [derivedCols, List.mem_cons, List.not_mem_nil, or_false, not_or] at h4
  rw [getCol_custoStep_ne _ h4.2.2.2, getCol_statusStep_ne _ h4.2.2.1,
    getCol_tenureStep_ne _ _ h4.2.1, getCol_ageStep_ne _ _ h4.1,
    getCol_moneyStep_ne _ h2, sexoStep_getCol_ne hs h3, getCol_dateStep, getCol_trimStep]
  cases getCol t c with
  | none => rfl
  | some cd => simp only [Option.map_some', if_neg h1]

/-! ### The claims -/

/-- C1: for every input table, a record's `Status` is `"Desligado"`
(Terminated) if and only if its termination-date value parsed to a
non-null date; and if the termination-date column is absent from the
table, every record's `Status` is `"Ativo"` (Active). -/
theorem claim_C1_status_iff (today : Date) (t d : Table) (h : prepare_df today t = .ok d) :
    (∀ vs, getCol d "Data de Demissao" = some (.dateD vs) →
      ∀ i, ((statusList d).get? i = some "Desligado" ↔ ((vs.get? i).join.isSome = true)))
    ∧ (getCol t "Data de Demissao" = none →
        statusList d = List.replicate t.nrows "Ativo") := by
  obtain ⟨t3, hs, hd⟩ := prepare_df_eq h
  have hd6 : getCol d "Data de Demissao"
      = getCol (tenureStep today (ageStep today (moneyStep t3))) "Data de Demissao" := by
    rw [hd, getCol_custoStep_ne _ (by decide), getCol_statusStep_ne _ (by decide)]
  constructor
  · intro vs hvs i
    have hdem : getCol (tenureStep today (ageStep today (moneyStep t3))) "Data de Demissao"
        = some (.dateD vs) := by rw [← hd6]; exact hvs
    have hst : getCol d "Status"
        = some (.strD ((notnaList (.dateD vs)).map (fun b => if b then "Desligado" else "Ativo"))) := by
      rw [hd, getCol_custoStep_ne _ (by decide), getCol_statusStep_some _ hdem]
    have hsl : statusList d = vs.map (fun v => if v.isSome then "Desligado" else "Ativo") := by
      unfold statusList
      rw [hst]
      simp [notnaList, List.map_map, Function.comp]
    rw [hsl, List.get?_map]
    cases hv : vs.get? i with
    | none => simp [Option.join]
    | some v => cases v <;> simp [Option.join]
  · intro hnone
    have hdem : getCol (tenureStep today (ageStep today (moneyStep t3))) "Data de Demissao"
        = none := by
      rw [← hd6, getCol_prepared_demissao h, hnone]
      rfl
    have hst : getCol d "Status"
        = some (.strD (List.replicate
            (tenureStep today (ageStep today (moneyStep t3))).nrows "Ativo")) := by
      rw [hd, getCol_custoStep_ne _ (by decide), getCol_statusStep_none _ hdem]
    have hn6 : (tenureStep today (ageStep today (moneyStep t3))).nrows = t.nrows := by
      rw [nrows_tenureStep, nrows_ageStep, nrows_moneyStep, sexoStep_nrows hs,
        nrows_dateStep, nrows_trimStep]
    unfold statusList
    rw [hst, hn6]

/-- Witness for C1: the concrete termination-date table `tDemissao`
prepared at `refDate`. -/
theorem claim_C1_status_iff_witness :
    (∀ vs, getCol dDemissao "Data de Demissao" = some (.dateD vs) →
      ∀ i, ((statusList dDemissao).get? i = some "Desligado" ↔ ((vs.get? i).join.isSome = true)))
    ∧ (getCol tDemissao "Data de Demissao" = none →
        statusList dDemissao = List.replicate tDemissao.nrows "Ativo") :=
  claim_C1_status_iff refDate tDemissao dDemissao (by rfl)

theorem numValsAt_congr (t' t : Table) (c : String) (i : Nat)
    (hc : getCol t' c = getCol t c) : numValsAt t' c i = numValsAt t c i := by
  unfold numValsAt
  rw [hc]

theorem numValsAt_of_numD (t : Table) (c : String) (vs : List (Option ℚ))
    (h : getCol t c = some (.numD vs)) (i : Nat) :
    numValsAt t c i = (vs.getD i none).getD 0 := by
  unfold numValsAt
  rw [h]

theorem money_text_cell_zero {today : Date} {t d : Table} (h : prepare_df today t = .ok d)
    {c : String} {vs : List (Option String)} {v : Option String} {i : Nat}
    (hc : c ∈ MONEY_COLS) (hraw : getCol t c = some (.text vs)) (hvi : vs.get? i = some v)
    (hparse : parseRat (trimCell v) = none) : numValsAt d c i = 0 := by
  have hm := getCol_prepared_money h hc
  unfold numValsAt
  rw [hm]
  unfold moneyColFinal
  rw [hraw]
  simp only [Option.map_some', Option.getD_some, trimCol, toNumericCol, fillna0,
    List.map_map]
  rw [List.getD_eq_getElem?_getD, List.getElem?_map, ← List.get?_eq_getElem?, hvi]
  simp [Function.comp, hparse]

/-- C2: for every record of every input table, after preparation
`Custo Total Mensal` equals the sum of the five monetary fields after
coercion; a monetary column absent from the raw input contributes
exactly 0, and a non-numeric or empty raw value contributes exactly
0. -/
theorem claim_C2_total_cost (today : Date) (t d : Table) (h : prepare_df today t = .ok d) :
    (∀ i, i < t.nrows →
      numValsAt d "Custo Total Mensal" i
        = MONEY_COLS.foldl (fun a c => a + numValsAt d c i) 0)
    ∧ (∀ c, c ∈ MONEY_COLS → getCol t c = none → ∀ i, numValsAt d c i = 0)
    ∧ (∀ c vs v i, c ∈ MONEY_COLS → getCol t c = some (.text vs) → vs.get? i = some v →
        parseRat (trimCell v) = none → numValsAt d c i = 0) := by
  obtain ⟨t3, hs, hd⟩ := prepare_df_eq h
  set t7 := statusStep (tenureStep today (ageStep today (moneyStep t3))) with ht7
  refine ⟨?_, ?_, ?_⟩
  · intro i hi
    have hn7 : t7.nrows = t.nrows := by
      rw [ht7, nrows_statusStep, nrows_tenureStep, nrows_ageStep, nrows_moneyStep,
        sexoStep_nrows hs, nrows_dateStep, nrows_trimStep]
    have hcusto : getCol d "Custo Total Mensal"
        = some (.numD ((List.range t7.nrows).map (fun j =>
            some (MONEY_COLS.foldl (fun a c => a + numValsAt t7 c j) 0)))) := by
      rw [hd]
      exact getCol_custoStep_self _
    rw [numValsAt_of_numD d _ _ hcusto i, List.getD_eq_getElem?_getD, List.getElem?_map,
      List.getElem?_range (by rw [hn7]; exact hi), Option.map_some', Option.getD_some,
      Option.getD_some]
    simp only [MONEY_COLS, List.foldl]
    rw [numValsAt_congr d t7 "Salario Base" i (by rw [hd]; exact getCol_custoStep_ne _ (by decide)),
      numValsAt_congr d t7 "Impostos" i (by rw [hd]; exact getCol_custoStep_ne _ (by decide)),
      numValsAt_congr d t7 "Beneficios" i (by rw [hd]; exact getCol_custoStep_ne _ (by decide)),
      numValsAt_congr d t7 "VT" i (by rw [hd]; exact getCol_custoStep_ne _ (by decide)),
      numValsAt_congr d t7 "VR" i (by rw [hd]; exact getCol_custoStep_ne _ (by decide))]
  · intro c hc hnone i
    have hm := getCol_prepared_money h hc
    unfold numValsAt
    rw [hm]
    unfold moneyColFinal
    rw [hnone]
    simp only [Option.map_none', Option.getD_none, toNumericCol, fillna0,
      List.map_replicate, Option.getD_some]
    rw [List.getD_eq_getElem?_getD, List.getElem?_replicate]
    by_cases hi : i < t.nrows <;> simp [hi]
  · exact fun c vs v i hc hraw hvi hparse => money_text_cell_zero h hc hraw hvi hparse

/-- Witness for C2: the concrete monetary table `tMoney` (salary as
text, a non-numeric allowance, three absent monetary columns). -/
theorem claim_C2_total_cost_witness :
    (∀ i, i < tMoney.nrows →
      numValsAt dMoney "Custo Total Mensal" i
        = MONEY_COLS.foldl (fun a c => a + numValsAt dMoney c i) 0)
    ∧ (∀ c, c ∈ MONEY_COLS → getCol tMoney c = none → ∀ i, numValsAt dMoney c i = 0)
    ∧ (∀ c vs v i, c ∈ MONEY_COLS → getCol tMoney c = some (.text vs) → vs.get? i = some v →
        parseRat (trimCell v) = none → numValsAt dMoney c i = 0) :=
  claim_C2_total_cost refDate tMoney dMoney (by rfl)

/-- C3 counterexample: on the concrete table `tSexo`, the raw value
`"Outro"` does not remain `"Outro"`: the pipeline uppercases it to
`"OUTRO"` before the replace map (which leaves it alone). -/
theorem claim_C3_counterexample :
    (prepare_df refDate tSexo).map (fun d => getCol d "Sexo")
      = .ok (some (.strD ["F", "OUTRO"]))
    ∧ ("OUTRO" : String) ≠ "Outro" :=
  ⟨by rfl, by decide⟩

/-- C3 (amended): sex-code canonicalization uppercases each value and
maps the two long-form spellings to single letters; an unrecognized
value passes through in uppercased form, so `"feminino"` becomes `"F"`
and `"Outro"` becomes `"OUTRO"`. -/
theorem claim_C3_sex_canon (today : Date) (t d : Table) (vs : List (Option String))
    (h : prepare_df today t = .ok d) (hg : getCol t "Sexo" = some (.text vs)) :
    getCol d "Sexo" = some (.strD (vs.map (fun v => sexCanon (trimCell v))))
    ∧ sexCanon "feminino" = "F"
    ∧ sexCanon "Outro" = "OUTRO" := by
  refine ⟨?_, by decide, by decide⟩
  have hsx : getCol (dateStep (trimStep t)) "Sexo" = some (.strD (vs.map trimCell)) := by
    rw [getCol_dateStep, getCol_trimStep, hg]
    rfl
  rw [getCol_prepared_sexo h hsx, List.map_map]
  rfl

/-- Witness for C3 (amended): the concrete table `tSexo`. -/
theorem claim_C3_sex_canon_witness :
    getCol dSexo "Sexo"
      = some (.strD ([some "feminino", some "Outro"].map (fun v => sexCanon (trimCell v))))
    ∧ sexCanon "feminino" = "F"
    ∧ sexCanon "Outro" = "OUTRO" :=
  claim_C3_sex_canon refDate tSexo dSexo [some "feminino", some "Outro"] (by rfl) (by rfl)

theorem charToUpper_idem (c : Char) : c.toUpper.toUpper = c.toUpper := by
  unfold Char.toUpper
  by_cases h : c.toNat ≥ 97 ∧ c.toNat ≤ 122
  · rw [if_pos h]
    have hv : (c.toNat - 32).isValidChar := by
      left
      omega
    have key : ∀ (n : Nat) (hn : n.isValidChar), (Char.ofNatAux n hn).toNat = n := by
      intro n hn
      simp [Char.ofNatAux, Char.toNat, UInt32.toNat, BitVec.toNat_ofNatLt]
    rw [Char.ofNat, dif_pos hv, if_neg]
    rw [key]
    omega
  · rw [if_neg h, if_neg h]

theorem pyUpper_idem (s : String) : pyUpper (pyUpper s) = pyUpper s := by
  unfold pyUpper
  refine congrArg String.mk ?_
  show List.map Char.toUpper (List.map Char.toUpper s.data) = List.map Char.toUpper s.data
  rw [List.map_map]
  exact List.map_congr_left (fun c _ => charToUpper_idem c)

theorem sexCanon_idem (s : String) : sexCanon (sexCanon s) = sexCanon s := by
  unfold sexCanon
  by_cases h1 : pyUpper s = "MASCULINO"
  · rw [if_pos h1]
    decide
  · rw [if_neg h1]
    by_cases h2 : pyUpper s = "FEMININO"
    · rw [if_pos h2]
      decide
    · rw [if_neg h2, pyUpper_idem, if_neg h1, if_neg h2]

/-- C8: sex-code canonicalization is idempotent: applying the
uppercase-then-map column operation twice yields the same column as
applying it once. -/
theorem claim_C8_canon_idem (c c' : ColData) (h : canonSexCol c = .ok c') :
    canonSexCol c' = .ok c' := by
  cases c with
  | strD vs =>
    simp only [canonSexCol] at h
    cases h
    simp only [canonSexCol, List.map_map, Except.ok.injEq, ColData.strD.injEq]
    exact List.map_congr_left (fun s _ => sexCanon_idem s)
  | text vs =>
    simp only [canonSexCol] at h
    cases h
    simp only [canonSexCol, List.map_map, Except.ok.injEq, ColData.text.injEq]
    refine List.map_congr_left (fun v _ => ?_)
    cases v with
    | none => rfl
    | some s => simp [sexCanon_idem]
  | numD vs => exact Except.noConfusion h
  | dateD vs => exact Except.noConfusion h

/-- Witness for C8: applying the canonicalization again to the
already-canonicalized column of `tSexo` leaves it fixed. -/
theorem claim_C8_canon_idem_witness :
    canonSexCol (.strD ["F", "OUTRO"]) = .ok (.strD ["F", "OUTRO"]) :=
  claim_C8_canon_idem (.strD ["feminino", "Outro"]) (.strD ["F", "OUTRO"]) (by rfl)

/-- C10: after the trim step, every originally text-typed column holds
plain strings: no cell is missing (`notna` is everywhere true), an
originally missing cell is the literal string `"nan"`, and every other
cell is its stripped raw value. -/
theorem claim_C10_trim_no_null (t : Table) (c : String) (vs : List (Option String))
    (h : getCol t c = some (.text vs)) :
    getCol (trimStep t) c = some (.strD (vs.map trimCell))
    ∧ (∀ b ∈ notnaList (.strD (vs.map trimCell)), b = true)
    ∧ trimCell none = "nan"
    ∧ (∀ s, trimCell (some s) = stripStr s) := by
  refine ⟨?_, ?_, rfl, fun s => rfl⟩
  · rw [getCol_trimStep, h]
    rfl
  · intro b hb
    simp only [notnaList, List.mem_map] at hb
    obtain ⟨s, _, hs⟩ := hb
    exact hs.symm

/-- Witness for C10: the concrete table `tNome`, whose text column has
one whitespace-padded value and one missing value. -/
theorem claim_C10_trim_no_null_witness :
    getCol (trimStep tNome) "Nome" = some (.strD ([some " Ana ", none].map trimCell))
    ∧ (∀ b ∈ notnaList (.strD ([some " Ana ", none].map trimCell)), b = true)
    ∧ trimCell none = "nan"
    ∧ (∀ s, trimCell (some s) = stripStr s) :=
  claim_C10_trim_no_null tNome "Nome" [some " Ana ", none] (by rfl)

/-- C4: on the empty input table (zero records), preparation succeeds
and each of the six indicator functions returns 0 (the two means
return their zero default because their source columns are absent). -/
theorem claim_C4_empty_indicators (today : Date) :
    (prepare_df today emptyTable).map (fun d =>
      (k_headcount_ativo d, k_desligados d, k_folha d, k_custo_total d,
       k_idade_media d, k_avaliacao_media d)) = .ok (0, 0, 0, 0, some 0, some 0) := rfl

/-- Witness for C4: the empty table evaluated at the fixed reference
date. -/
theorem claim_C4_empty_indicators_witness :
    (prepare_df refDate emptyTable).map (fun d =>
      (k_headcount_ativo d, k_desligados d, k_folha d, k_custo_total d,
       k_idade_media d, k_avaliacao_media d)) = .ok (0, 0, 0, 0, some 0, some 0) :=
  claim_C4_empty_indicators refDate

/-- C5 counterexample: an unrecognized text column does not keep its
values unchanged: on `tObs` the raw cell `"  x  "` appears trimmed to
`"x"` in the prepared table. -/
theorem claim_C5_counterexample :
    (prepare_df refDate tObs).map (fun d => getCol d "Observacao")
      = .ok (some (.strD ["x"]))
    ∧ ("x" : String) ≠ "  x  " :=
  ⟨by rfl, by decide⟩

/-- C5 (amended): every raw column that is neither recognized nor
named like one of the four derived columns appears in the prepared
table; a non-text column keeps every value unchanged, while a
text-typed column's values are the trimmed string forms of the raw
values. -/
theorem claim_C5_passthrough (today : Date) (t d : Table) (c : String)
    (h : prepare_df today t = .ok d) (h1 : c ∉ recognizedCols) (h2 : c ∉ derivedCols) :
    getCol d c = (getCol t c).map trimCol
    ∧ (∀ vs, trimCol (.numD vs) = .numD vs)
    ∧ (∀ vs, trimCol (.dateD vs) = .dateD vs) := by
  have hsx : c ≠ "Sexo" := by
    intro hc
    exact h1 (by rw [hc]; decide)
  have hdc : c ∉ DATE_COLS := by
    intro hc
    exact h1 (by simp [recognizedCols, List.mem_append, hc])
  have hmc : c ∉ MONEY_COLS := by
    intro hc
    exact h1 (by simp [recognizedCols, List.mem_append, hc])
  exact ⟨getCol_prepared_untouched h hdc hmc hsx h2, fun vs => rfl, fun vs => rfl⟩

/-- Witness for C5 (amended): the unrecognized column `"Observacao"`
of the concrete table `tObs`. -/
theorem claim_C5_passthrough_witness :
    getCol dObs "Observacao" = (getCol tObs "Observacao").map trimCol
    ∧ (∀ vs, trimCol (.numD vs) = .numD vs)
    ∧ (∀ vs, trimCol (.dateD vs) = .dateD vs) :=
  claim_C5_passthrough refDate tObs dObs "Observacao" (by rfl) (by decide) (by decide)

/-- C6: derived `Idade` and `Tempo de Casa (meses)` values are never
negative: whenever the birth-date (resp. hire-date) column exists in
the raw table, every present value of the derived column is ≥ 0 (a
birth or hire date in the future is clipped to 0). -/
theorem claim_C6_nonneg (today : Date) (t d : Table) (h : prepare_df today t = .ok d) :
    ((getCol t "Data de Nascimento").isSome = true →
      ∀ vs, getCol d "Idade" = some (.numD vs) →
        ∀ v ∈ vs, ∀ q : ℚ, v = some q → 0 ≤ q)
    ∧ ((getCol t "Data de Contratacao").isSome = true →
      ∀ vs, getCol d "Tempo de Casa (meses)" = some (.numD vs) →
        ∀ v ∈ vs, ∀ q : ℚ, v = some q → 0 ≤ q) := by
  constructor
  · intro hb vs hvs v hv q hq
    obtain ⟨cb, hcb⟩ := Option.isSome_iff_exists.mp hb
    obtain ⟨ws, _, _, hidade⟩ := getCol_prepared_birth_idade h hcb
    rw [hvs] at hidade
    simp only [Option.some.injEq, ColData.numD.injEq] at hidade
    rw [hidade] at hv
    rw [List.mem_map] at hv
    obtain ⟨b, _, hbv⟩ := hv
    rw [← hbv] at hq
    cases b with
    | none => exact Option.noConfusion hq
    | some bd =>
      simp only [Option.map_some', Option.some.injEq] at hq
      rw [← hq]
      have h0 : (0 : Int) ≤ max 0 (Int.fdiv (today.toDays - bd.toDays) 365) := le_max_left _ _
      exact_mod_cast h0
  · intro hb vs hvs v hv q hq
    obtain ⟨cb, hcb⟩ := Option.isSome_iff_exists.mp hb
    obtain ⟨ws, _, htenure⟩ := getCol_prepared_hire_tenure h hcb
    rw [hvs] at htenure
    simp only [Option.some.injEq, ColData.numD.injEq] at htenure
    rw [htenure] at hv
    rw [List.mem_map] at hv
    obtain ⟨b, _, hbv⟩ := hv
    rw [← hbv] at hq
    cases b with
    | none => exact Option.noConfusion hq
    | some bd =>
      simp only [Option.map_some', Option.some.injEq] at hq
      rw [← hq]
      have h0 : (0 : Int)
          ≤ max 0 ((today.year - bd.year) * 12 + ((today.month : Int) - (bd.month : Int))) :=
        le_max_left _ _
      exact_mod_cast h0

/-- Witness for C6: the concrete table `tFuture`, whose birth and hire
dates lie in the future of `refDate`. -/
theorem claim_C6_nonneg_witness :
    ((getCol tFuture "Data de Nascimento").isSome = true →
      ∀ vs, getCol dFuture "Idade" = some (.numD vs) →
        ∀ v ∈ vs, ∀ q : ℚ, v = some q → 0 ≤ q)
    ∧ ((getCol tFuture "Data de Contratacao").isSome = true →
      ∀ vs, getCol dFuture "Tempo de Casa (meses)" = some (.numD vs) →
        ∀ v ∈ vs, ∀ q : ℚ, v = some q → 0 ≤ q) :=
  claim_C6_nonneg refDate tFuture dFuture (by rfl)

/-- C7: malformed individual values never make the Preparer raise: the
pipeline succeeds on every table whose sex column (if any) is a text
column; a date string that fails to parse (such as `"not-a-date"` or
the empty string) yields a null date, and the affected record's
derived age is missing rather than an error; a monetary value that
fails coercion contributes exactly 0. -/
theorem claim_C7_never_raises (today : Date) (t : Table) :
    (sexoConvertible t = true → ∃ d, prepare_df today t = .ok d)
    ∧ parseDate "not-a-date" = none
    ∧ parseDate "" = none
    ∧ (∀ d vs v i, prepare_df today t = .ok d →
        getCol t "Data de Nascimento" = some (.text vs) → vs.get? i = some v →
        parseDate (trimCell v) = none →
        ∃ ws, getCol d "Idade" = some (.numD ws) ∧ ws.get? i = some none)
    ∧ (∀ d c vs v i, prepare_df today t = .ok d → c ∈ MONEY_COLS →
        getCol t c = some (.text vs) → vs.get? i = some v →
        parseRat (trimCell v) = none → numValsAt d c i = 0) := by
  refine ⟨?_, by decide, by decide, ?_, ?_⟩
  · intro hconv
    have hmap : getCol (dateStep (trimStep t)) "Sexo" = (getCol t "Sexo").map trimCol := by
      rw [getCol_dateStep, getCol_trimStep]
      cases getCol t "Sexo" with
      | none => rfl
      | some cd => simp only [Option.map_some', if_neg (by decide : ¬("Sexo" ∈ DATE_COLS))]
    have hsx : ∃ t3, sexoStep (dateStep (trimStep t)) = .ok t3 := by
      unfold sexoStep
      rw [hmap]
      unfold sexoConvertible at hconv
      cases hraw : getCol t "Sexo" with
      | none => exact ⟨_, rfl⟩
      | some cd =>
        rw [hraw] at hconv
        cases cd with
        | text vs => exact ⟨_, rfl⟩
        | strD vs => exact ⟨_, rfl⟩
        | numD vs => simp [strConvertible] at hconv
        | dateD vs => simp [strConvertible] at hconv
    obtain ⟨t3, ht3⟩ := hsx
    refine ⟨custoStep (statusStep (tenureStep today (ageStep today (moneyStep t3)))), ?_⟩
    simp only [prepare_df, Bind.bind, Except.bind, pure, Except.pure, ht3]
  · intro d vs v i hok hraw hvi hparse
    obtain ⟨ws, _, hdate, hidade⟩ := getCol_prepared_birth_idade hok hraw
    have hws : ws = (vs.map trimCell).map parseDate := by
      simp only [trimCol, toDatetimeCol, ColData.dateD.injEq] at hdate
      exact hdate.symm
    refine ⟨_, hidade, ?_⟩
    subst hws
    rw [List.map_map, List.map_map, List.get?_map, hvi]
    simp [Function.comp, hparse]
  · exact fun d c vs v i hok hc hraw hvi hp => money_text_cell_zero hok hc hraw hvi hp

/-- Witness for C7: the concrete table `tMalformed` (text sex column,
unparseable birth date) evaluated at `refDate`. -/
theorem claim_C7_never_raises_witness :
    (sexoConvertible tMalformed = true → ∃ d, prepare_df refDate tMalformed = .ok d)
    ∧ parseDate "not-a-date" = none
    ∧ parseDate "" = none
    ∧ (∀ d vs v i, prepare_df refDate tMalformed = .ok d →
        getCol tMalformed "Data de Nascimento" = some (.text vs) → vs.get? i = some v →
        parseDate (trimCell v) = none →
        ∃ ws, getCol d "Idade" = some (.numD ws) ∧ ws.get? i = some none)
    ∧ (∀ d c vs v i, prepare_df refDate tMalformed = .ok d → c ∈ MONEY_COLS →
        getCol tMalformed c = some (.text vs) → vs.get? i = some v →
        parseRat (trimCell v) = none → numValsAt d c i = 0) :=
  claim_C7_never_raises refDate tMalformed

theorem foldl_filter_ativo (l : List (String × Option ℚ)) (a : ℚ) :
    (l.filter (fun p => p.1 = "Ativo")).foldl (fun acc p => acc + p.2.getD 0) a
      = l.foldl (fun acc p => acc + (if p.1 = "Ativo" then p.2.getD 0 else 0)) a := by
  induction l generalizing a with
  | nil => rfl
  | cons hd tl ih =>
    by_cases h : hd.1 = "Ativo" <;> simp [List.filter_cons, h, ih, add_zero]

/-- C9: the payroll-total indicator equals the sum of the base-salary
field over exactly the records whose `Status` is `"Ativo"`: in the
equivalent record-wise form, a record contributes its base salary when
Active and exactly 0 when Terminated. -/
theorem claim_C9_folha_active_only (d : Table) :
    k_folha d = ((statusList d).zip (numList d "Salario Base")).foldl
      (fun a p => a + (if p.1 = "Ativo" then p.2.getD 0 else 0)) 0 :=
  foldl_filter_ativo _ 0

/-- Witness for C9: evaluated on the prepared table `dDemissao`, which
has one Active and one Terminated record. -/
theorem claim_C9_folha_active_only_witness :
    k_folha dDemissao = ((statusList dDemissao).zip (numList dDemissao "Salario Base")).foldl
      (fun a p => a + (if p.1 = "Ativo" then p.2.getD 0 else 0)) 0 :=
  claim_C9_folha_active_only dDemissao

end HRDash
